import Mathlib

/-!
Verification development for the feature-comparison service in `app.py`.

The Python source is shallowly embedded in Lean: strings are `List Char`
(ASCII semantics for case mapping and whitespace), Python dicts holding the
extracted features are association lists with Python's insertion-order update
semantics, and the two network collaborators (the plain HTTP fetch used by
`scrape_features` and the rendering fetch used by `scrape_dynamic_features`)
are oracles passed as function arguments.  Parsed HTML documents are
abstracted as records whose fields hold the results of the selector queries
the source performs; the extraction logic itself (cascades, truncation,
thresholds, normalization) is translated statement by statement from the
source.
-/

/-- ASCII uppercase letter test, `65..90` are the code points of `A..Z`. -/
def isUpperA (c : Char) : Bool := 65 ≤ c.toNat && c.toNat ≤ 90

/-- ASCII lowercase letter test, `97..122` are the code points of `a..z`. -/
def isLowerA (c : Char) : Bool := 97 ≤ c.toNat && c.toNat ≤ 122

/-- ASCII cased character (Python `str.title` treats exactly the cased
characters as word constituents; for ASCII these are the letters). -/
def isAsciiAlpha (c : Char) : Bool := isUpperA c || isLowerA c

/-- ASCII lowering of one character, as Python `str.lower` acts on ASCII. -/
def asciiLower (c : Char) : Char :=
  if isUpperA c then Char.ofNat (c.toNat + 32) else c

/-- ASCII raising of one character, as Python `str.upper` acts on ASCII. -/
def asciiUpper (c : Char) : Char :=
  if isLowerA c then Char.ofNat (c.toNat - 32) else c

/-- The ASCII whitespace characters stripped by Python `str.strip()`. -/
def isPySpace (c : Char) : Bool :=
  c = ' ' || c = '\t' || c = '\n' || c = '\x0d' || c = '\x0b' || c = '\x0c'

/-- Python `str.lower` on an ASCII string. -/
def pyLower (s : List Char) : List Char := s.map asciiLower

/-- Python `str.strip()`: remove leading and trailing whitespace. -/
def pyStrip (s : List Char) : List Char :=
  (s.dropWhile isPySpace).rdropWhile isPySpace

/-- Helper for `pyTitle`: the Boolean records whether the previous character
was cased, as in CPython's `str.title` loop. -/
def titleAux : Bool → List Char → List Char
  | _, [] => []
  | prev, c :: cs =>
    if isAsciiAlpha c then
      (if prev then asciiLower c else asciiUpper c) :: titleAux true cs
    else
      c :: titleAux false cs

/-- Python `str.title` on an ASCII string: the first cased character of each
run of cased characters is uppercased, the rest are lowercased. -/
def pyTitle (s : List Char) : List Char := titleAux false s

/-- Python `str.startswith pat`: `pat` is a prefix of the string. -/
def pyStartsWith : List Char → List Char → Bool
  | [], _ => true
  | _ :: _, [] => false
  | p :: ps, c :: cs => p = c && pyStartsWith ps cs

/-- Python's substring test `pat in hay`. -/
def containsSub (hay pat : List Char) : Bool :=
  pyStartsWith pat hay ||
    match hay with
    | [] => false
    | _ :: t => containsSub t pat

/-- Feature maps: Python dicts from feature name to feature value, embedded
as association lists in insertion order. -/
abbrev FeatureMap := List (List Char × List Char)

/-- Python dict assignment `m[k] = v`: overwrite in place if the key exists
(keeping its position), otherwise append at the end. -/
def dinsert (m : FeatureMap) (k v : List Char) : FeatureMap :=
  if m.any (fun p => p.1 = k) then
    m.map (fun p => if p.1 = k then (p.1, v) else p)
  else
    m ++ [(k, v)]

/-- Python `k in m` on a dict. -/
def hasKey (m : FeatureMap) (k : List Char) : Bool :=
  m.any (fun p => p.1 = k)

/-- Python dict lookup `m[k]`, as an option. -/
def getVal (m : FeatureMap) (k : List Char) : Option (List Char) :=
  (m.find? (fun p => p.1 = k)).map (fun p => p.2)

/-- The fixed substring-to-canonical-name table of `normalize_key`
(src/app.py:27-40), in declaration order; Python dicts iterate in insertion
order. -/
def keyMapping : List (List Char × List Char) :=
  [("memory".toList, "RAM".toList),
   ("ram".toList, "RAM".toList),
   ("internal storage".toList, "Storage".toList),
   ("storage".toList, "Storage".toList),
   ("battery capacity".toList, "Battery".toList),
   ("battery".toList, "Battery".toList),
   ("camera".toList, "Camera".toList),
   ("main camera".toList, "Camera".toList),
   ("display".toList, "Display".toList),
   ("screen size".toList, "Display".toList),
   ("price".toList, "Price".toList),
   ("product".toList, "Product".toList)]

/-- The `for k in mapping: if k in key: return mapping[k]` loop of
`normalize_key` (src/app.py:41-43). -/
def lookupNorm : List (List Char × List Char) → List Char → Option (List Char)
  | [], _ => none
  | (pat, canon) :: rest, k =>
    if containsSub k pat then some canon else lookupNorm rest k

/-- Embedding of `normalize_key` (src/app.py:25-44): lowercase and strip the
raw label, return the canonical name of the first table pattern occurring as
a substring, else the title-cased label. -/
def normalize_key (key : List Char) : List Char :=
  match lookupNorm keyMapping (pyStrip (pyLower key)) with
  | some canon => canon
  | none => pyTitle (pyStrip (pyLower key))

/-- Abstraction of a parsed static HTML page: each field holds the result of
one of the BeautifulSoup queries performed by `scrape_features`
(src/app.py:146-181).  `h1` is the stripped text of the first `h1` element;
`priceSel` and `descSel` are the results of the two `extract_text` calls;
`metaDesc` is the `content` attribute of the `meta[name=description]` tag when
that tag is present (BeautifulSoup's `get` defaults a missing attribute to the
empty string); `lists` gives, for each `ul`/`ol` element in document order,
the stripped texts of its `li` descendants; `titleTag` is the stripped text of
the `title` element; `contentLength` is `len(response.content)`. -/
structure Page where
  h1 : Option (List Char)
  priceSel : Option (List Char)
  descSel : Option (List Char)
  metaDesc : Option (List Char)
  lists : List (List (List Char))
  titleTag : Option (List Char)
  contentLength : Nat

/-- Outcome of the plain `requests.get` fetch (src/app.py:139-140): either a
`requests.RequestException` carrying a message (network error, timeout, or
`raise_for_status` on a non-2xx response) or a parsed page. -/
inductive FetchOutcome where
  | failure : List Char → FetchOutcome
  | success : Page → FetchOutcome

/-- Selector lists consulted by the generic extractor. -/
inductive SelList where
  | price
  | descr

/-- Modelled from the spec: the helper `extract_text` and the selector lists
`PRICE_SELECTORS` and `DESC_SELECTORS` are referenced at src/app.py:151 and
src/app.py:156 but are defined nowhere in the repository.  Per the spec
(section 4.4) the helper searches an ordered list of known selectors and
returns the first non-empty text match, or nothing.  Its outcome on a given
page is abstracted as the corresponding field of `Page`. -/
def extract_text (pg : Page) (sel : SelList) : Option (List Char) :=
  match sel with
  | .price => pg.priceSel
  | .descr => pg.descSel

/-- Python truthiness for `extract_text` results: `None` and the empty string
are falsy. -/
def truthyOpt : Option (List Char) → Bool
  | none => false
  | some s => !s.isEmpty

/-- The meta-description fallback of `scrape_features` (src/app.py:158-163):
`content[:200] + "..."` when the meta tag is present, else the literal
`"No description found"`. -/
def descFallback (pg : Page) : List Char :=
  match pg.metaDesc with
  | some content => content.take 200 ++ "...".toList
  | none => "No description found".toList

/-- The feature-list loop of `scrape_features` (src/app.py:169-173): for each
of the first three `ul`/`ol` elements, take up to five `li` texts, and if any
remain store them comma-joined under `Feature List {i+1}`.  The
`isinstance(ul, bs4.element.Tag)` guard is always true for `find_all` results
and is not represented. -/
def addFeatureLists : FeatureMap → Nat → List (List (List Char)) → FeatureMap
  | m, _, [] => m
  | m, i, ul :: rest =>
    let items := ul.take 5
    let m' :=
      if items.isEmpty then m
      else dinsert m ("Feature List ".toList ++ (Nat.repr (i + 1)).toList)
        (List.intercalate ", ".toList items)
    addFeatureLists m' (i + 1) rest

/-- Body of the `try` block of `scrape_features` (src/app.py:143-185): the
decision cascade run on a successfully fetched and parsed page. -/
def scrapePage (url : List Char) (pg : Page) : FeatureMap :=
  let features0 : FeatureMap := []
  let features1 :=
    match pg.h1 with
    | some t => dinsert features0 "Product".toList t
    | none => features0
  let features2 :=
    if truthyOpt (extract_text pg .price) then
      dinsert features1 "Price".toList ((extract_text pg .price).getD [])
    else features1
  let description :=
    if truthyOpt (extract_text pg .descr) then (extract_text pg .descr).getD []
    else descFallback pg
  let features3 := dinsert features2 "Description".toList description
  let features4 :=
    if features3.length ≤ 1 then addFeatureLists features3 0 (pg.lists.take 3)
    else features3
  if features4.isEmpty then
    [("Title".toList, match pg.titleTag with | some t => t | none => "No title found".toList),
     ("URL".toList, url),
     ("Content Length".toList, (Nat.repr pg.contentLength).toList ++ " bytes".toList)]
  else features4

/-- Embedding of `scrape_features` (src/app.py:136-192), the generic fallback
extractor, parameterized by the plain fetch oracle.  A fetch failure yields
the reserved-error-key dict built at src/app.py:189; otherwise the cascade of
src/app.py:143-185 runs on the parsed page. -/
def scrape_features (fetch : List Char → FetchOutcome) (url : List Char) :
    FeatureMap :=
  match fetch url with
  | .failure e =>
    [("error".toList, "Failed to fetch ".toList ++ url ++ ": ".toList ++ e)]
  | .success pg => scrapePage url pg

/-- Abstraction of a rendered DOM as queried by `scrape_dynamic_features`
(src/app.py:55-86): each field holds the result of one of the
`requests_html` selector queries.  `amazonSpecs` gives, for each row of the
Amazon spec tables, the stripped texts of its first `th` and first `td`
(none when the cell is absent); `flipkartSections` gives, for each section
`div`, its table rows as lists of stripped `td` texts. -/
structure RenderedPage where
  amazonTitle : Option (List Char)
  amazonPrice : Option (List Char)
  amazonSpecs : List (Option (List Char) × Option (List Char))
  flipkartTitle : Option (List Char)
  flipkartPrice : Option (List Char)
  flipkartSections : List (List (List (List Char)))

/-- Outcome of the rendering fetch (src/app.py:49-51): an exception message
(network failure or render timeout) or a rendered DOM. -/
inductive RenderOutcome where
  | failure : List Char → RenderOutcome
  | success : RenderedPage → RenderOutcome

/-- The Amazon spec-row loop of `scrape_dynamic_features` (src/app.py:63-69):
rows with both a `th` and a `td` store the normalized label and the value;
rows missing either cell are skipped. -/
def addAmazonSpecs : FeatureMap → List (Option (List Char) × Option (List Char)) → FeatureMap
  | m, [] => m
  | m, (kEl, vEl) :: rest =>
    match kEl, vEl with
    | some k, some v => addAmazonSpecs (dinsert m (normalize_key k) v) rest
    | _, _ => addAmazonSpecs m rest

/-- The Flipkart row loop of `scrape_dynamic_features` (src/app.py:80-86):
rows with exactly two `td` cells store the normalized first cell and the
second cell; other rows are skipped. -/
def addFlipkartRows : FeatureMap → List (List (List Char)) → FeatureMap
  | m, [] => m
  | m, row :: rest =>
    match row with
    | [k, v] => addFlipkartRows (dinsert m (normalize_key k) v) rest
    | _ => addFlipkartRows m rest

/-- The Flipkart section loop of `scrape_dynamic_features` (src/app.py:79-86). -/
def addFlipkartSections : FeatureMap → List (List (List (List Char))) → FeatureMap
  | m, [] => m
  | m, sec :: rest => addFlipkartSections (addFlipkartRows m sec) rest

/-- Body of the `try` block of `scrape_dynamic_features` (src/app.py:53-92),
the rendered-DOM extractor: the URL's substring test selects the Amazon
branch, the Flipkart branch, or the `Unsupported platform` error of
src/app.py:89. -/
def scrapeDynamicPage (url : List Char) (r : RenderedPage) : FeatureMap :=
  if containsSub url "amazon".toList then
    let d1 := dinsert [] "Product".toList
      (match r.amazonTitle with | some t => t | none => "N/A".toList)
    let d2 := dinsert d1 "Price".toList
      (match r.amazonPrice with | some p => p | none => "N/A".toList)
    addAmazonSpecs d2 r.amazonSpecs
  else if containsSub url "flipkart".toList then
    let d1 := dinsert [] "Product".toList
      (match r.flipkartTitle with | some t => t | none => "N/A".toList)
    let d2 := dinsert d1 "Price".toList
      (match r.flipkartPrice with | some p => p | none => "N/A".toList)
    addFlipkartSections d2 r.flipkartSections
  else
    [("error".toList, "Unsupported platform".toList)]

/-- Dispatch of `scrape_dynamic_features` on the rendering outcome
(src/app.py:46-51, 94-96): an exception yields the reserved-error-key dict of
src/app.py:96, a rendered DOM goes through `scrapeDynamicPage`. -/
def scrape_dynamic_features (render : List Char → RenderOutcome)
    (url : List Char) : FeatureMap :=
  match render url with
  | .failure e =>
    [("error".toList, "Error scraping ".toList ++ url ++ ": ".toList ++ e)]
  | .success r => scrapeDynamicPage url r

/-- Embedding of `is_valid_url` (src/app.py:22-23). -/
def is_valid_url (url : List Char) : Bool :=
  pyStartsWith "http://".toList url || pyStartsWith "https://".toList url

/-- The routing test of the first `compare` definition (src/app.py:111-112):
a URL goes to the rendering extractor iff `amazon` or `flipkart` occurs as a
substring anywhere in the URL. -/
def routeIsDynamic (url : List Char) : Bool :=
  containsSub url "amazon".toList || containsSub url "flipkart".toList

/-- Which fetch strategy a URL was sent through. -/
inductive FetchKind where
  | plain
  | rendering
deriving DecidableEq

/-- JSON body of a `/compare` request once decoded: the optional `url1` and
`url2` fields (`data.get` returns `None` for a missing field). -/
structure Payload where
  url1 : Option (List Char)
  url2 : Option (List Char)

/-- HTTP response of the `/compare` handlers: either a 400 with an error
message or a 200 with the two feature maps. -/
inductive Resp where
  | err : List Char → Resp
  | ok : FeatureMap → FeatureMap → Resp
deriving DecidableEq

/-- Embedding of the first `compare` handler (src/app.py:98-119).  The input
is the decoded JSON body (`none` covers a missing or falsy payload, for which
`request.get_json()` fails the `if not data` test).  The second component of
the result logs, in evaluation order, each URL for which an extraction was
attempted together with the fetch strategy used; src/app.py:111-112 evaluate
both extractions unconditionally once validation has passed. -/
def compare1 (render : List Char → RenderOutcome)
    (fetch : List Char → FetchOutcome) (payload : Option Payload) :
    Resp × List (List Char × FetchKind) :=
  match payload with
  | none => (Resp.err "Missing JSON payload".toList, [])
  | some data =>
    if !(truthyOpt data.url1 && truthyOpt data.url2) then
      (Resp.err "Both URLs are required".toList, [])
    else
      let u1 := data.url1.getD []
      let u2 := data.url2.getD []
      if !(is_valid_url u1 && is_valid_url u2) then
        (Resp.err "URLs must start with http:// or https://".toList, [])
      else
        let r1 := if routeIsDynamic u1 then scrape_dynamic_features render u1
          else scrape_features fetch u1
        let r2 := if routeIsDynamic u2 then scrape_dynamic_features render u2
          else scrape_features fetch u2
        let log := [(u1, if routeIsDynamic u1 then FetchKind.rendering else FetchKind.plain),
                    (u2, if routeIsDynamic u2 then FetchKind.rendering else FetchKind.plain)]
        if hasKey r1 "error".toList then (Resp.err ((getVal r1 "error".toList).getD []), log)
        else if hasKey r2 "error".toList then (Resp.err ((getVal r2 "error".toList).getD []), log)
        else (Resp.ok r1 r2, log)

/-- Embedding of the second `compare` handler (src/app.py:194-214), the one
that shadows the first under Python name scoping: identical validation, but
both URLs go through the plain fetch and the generic extractor
(src/app.py:207 evaluates both calls before any error check). -/
def compare2 (fetch : List Char → FetchOutcome) (payload : Option Payload) :
    Resp × List (List Char × FetchKind) :=
  match payload with
  | none => (Resp.err "Missing JSON payload".toList, [])
  | some data =>
    if !(truthyOpt data.url1 && truthyOpt data.url2) then
      (Resp.err "Both URLs are required".toList, [])
    else
      let u1 := data.url1.getD []
      let u2 := data.url2.getD []
      if !(is_valid_url u1 && is_valid_url u2) then
        (Resp.err "URLs must start with http:// or https://".toList, [])
      else
        let r1 := scrape_features fetch u1
        let r2 := scrape_features fetch u2
        let log := [(u1, FetchKind.plain), (u2, FetchKind.plain)]
        if hasKey r1 "error".toList then (Resp.err ((getVal r1 "error".toList).getD []), log)
        else if hasKey r2 "error".toList then (Resp.err ((getVal r2 "error".toList).getD []), log)
        else (Resp.ok r1 r2, log)

/-- Demonstration static page used for concrete evaluations. -/
def pgDemo : Page :=
  { h1 := some "Widget".toList
    priceSel := some "$5".toList
    descSel := none
    metaDesc := some "A small widget".toList
    lists := [["alpha".toList, "beta".toList]]
    titleTag := some "Widget page".toList
    contentLength := 10 }

/-- Demonstration plain-fetch oracle: every URL succeeds with `pgDemo`. -/
def fetchDemo : List Char → FetchOutcome := fun _ => FetchOutcome.success pgDemo

/-- Demonstration plain-fetch oracle failing on `http://a` only. -/
def fetchFailA : List Char → FetchOutcome := fun u =>
  if u = "http://a".toList then FetchOutcome.failure "timeout".toList
  else FetchOutcome.success pgDemo

/-- Demonstration rendered page used for concrete evaluations. -/
def rpgDemo : RenderedPage :=
  { amazonTitle := some "Phone".toList
    amazonPrice := none
    amazonSpecs := [(some "RAM".toList, some "8 GB".toList)]
    flipkartTitle := none
    flipkartPrice := none
    flipkartSections := [] }

/-- Demonstration rendering oracle: every URL renders to `rpgDemo`. -/
def renderDemo : List Char → RenderOutcome := fun _ => RenderOutcome.success rpgDemo

/-- Modelled from the spec: the host of a URL, for comparing the source's
routing test against the spec's words in section 4.5 ("if the URL's host
matches marketplace-A or marketplace-B"); the host is what stands between the
scheme separator and the next slash. -/
def hostOf (url : List Char) : List Char :=
  let rest :=
    if pyStartsWith "https://".toList url then url.drop 8
    else if pyStartsWith "http://".toList url then url.drop 7
    else url
  rest.takeWhile (fun c => c ≠ '/')

/-- Modelled from the spec: the router of section 4.5 as the spec words it,
selecting the rendering path exactly when the URL's host matches one of the
two marketplaces (read generously as the marketplace name occurring in the
host). -/
def specRouterDynamic (url : List Char) : Bool :=
  containsSub (hostOf url) "amazon".toList || containsSub (hostOf url) "flipkart".toList

theorem char_toNat_ofNat (n : Nat) (h : n < 55296) : (Char.ofNat n).toNat = n := by
  unfold Char.ofNat
  rw [dif_pos (Or.inl h)]
  rfl

theorem asciiLower_asciiLower (c : Char) : asciiLower (asciiLower c) = asciiLower c := by
  unfold asciiLower
  by_cases h : isUpperA c = true
  · have hb : 65 ≤ c.toNat ∧ c.toNat ≤ 90 := by
      simpa [isUpperA] using h
    rw [if_pos h]
    have ht : (Char.ofNat (c.toNat + 32)).toNat = c.toNat + 32 :=
      char_toNat_ofNat _ (by omega)
    have : isUpperA (Char.ofNat (c.toNat + 32)) = false := by
      simp [isUpperA, ht]
      omega
    rw [this]
    simp
  · rw [if_neg h, if_neg h]

theorem asciiLower_asciiUpper (c : Char) : asciiLower (asciiUpper c) = asciiLower c := by
  unfold asciiUpper asciiLower
  by_cases h : isLowerA c = true
  · have hb : 97 ≤ c.toNat ∧ c.toNat ≤ 122 := by
      simpa [isLowerA] using h
    rw [if_pos h]
    have ht : (Char.ofNat (c.toNat - 32)).toNat = c.toNat - 32 :=
      char_toNat_ofNat _ (by omega)
    have hup : isUpperA (Char.ofNat (c.toNat - 32)) = true := by
      simp [isUpperA, ht]
      omega
    have hnotup : isUpperA c = false := by
      simp [isUpperA]
      omega
    rw [if_pos hup, if_neg (by simp [hnotup])]
    rw [ht]
    have : c.toNat - 32 + 32 = c.toNat := by omega
    rw [this, Char.ofNat_toNat]
  · rw [if_neg h]

theorem asciiUpper_toNat_le (c : Char) (h : isAsciiAlpha c = true) :
    (asciiUpper c).toNat ≤ 90 := by
  unfold asciiUpper
  by_cases hl : isLowerA c = true
  · have hb : 97 ≤ c.toNat ∧ c.toNat ≤ 122 := by
      simpa [isLowerA] using hl
    rw [if_pos hl]
    rw [char_toNat_ofNat _ (by omega)]
    omega
  · have hu : isUpperA c = true := by
      have h2 : isUpperA c = true ∨ isLowerA c = true := by
        simpa [isAsciiAlpha, Bool.or_eq_true] using h
      rcases h2 with h1 | h1
      · exact h1
      · exact absurd h1 hl
    have hb : 65 ≤ c.toNat ∧ c.toNat ≤ 90 := by
      simpa [isUpperA] using hu
    rw [if_neg hl]
    omega

theorem titleAux_length (b : Bool) (s : List Char) : (titleAux b s).length = s.length := by
  induction s generalizing b with
  | nil => rfl
  | cons c cs ih =>
    unfold titleAux
    by_cases h : isAsciiAlpha c = true
    · simp [h, ih]
    · simp [h, ih]

theorem pyLower_titleAux (b : Bool) (s : List Char) :
    pyLower (titleAux b s) = pyLower s := by
  induction s generalizing b with
  | nil => rfl
  | cons c cs ih =>
    unfold titleAux
    by_cases h : isAsciiAlpha c = true
    · by_cases hb : b = true
      · simp only [h, if_pos rfl, hb, if_true, pyLower, List.map_cons]
        rw [asciiLower_asciiLower]
        have := ih true
        simpa [pyLower] using this
      · simp only [h, if_true, hb, if_false, Bool.false_eq_true, pyLower, List.map_cons]
        rw [asciiLower_asciiUpper]
        have := ih true
        simpa [pyLower] using this
    · simp only [h, if_false, Bool.false_eq_true, pyLower, List.map_cons]
      have := ih false
      simpa [pyLower] using this

theorem pyLower_of_allLower (s : List Char) (h : ∀ c ∈ s, asciiLower c = c) :
    pyLower s = s := by
  induction s with
  | nil => rfl
  | cons c cs ih =>
    simp only [pyLower, List.map_cons]
    rw [h c (by simp)]
    have hcs : pyLower cs = cs := ih (fun d hd => h d (by simp [hd]))
    rw [show List.map asciiLower cs = pyLower cs from rfl, hcs]

theorem mem_pyLower_lowered (s : List Char) (c : Char) (h : c ∈ pyLower s) :
    asciiLower c = c := by
  rcases List.mem_map.mp h with ⟨d, _, hd⟩
  rw [← hd]
  exact asciiLower_asciiLower d

theorem pyStrip_subset (s : List Char) : ∀ c ∈ pyStrip s, c ∈ s := by
  intro c hc
  have h1 : c ∈ (s.dropWhile isPySpace) := by
    have hp := List.rdropWhile_prefix isPySpace (s.dropWhile isPySpace)
    exact hp.sublist.subset hc
  exact (List.dropWhile_suffix isPySpace).sublist.subset h1

theorem pyLower_pyStrip_pyLower (s : List Char) :
    pyLower (pyStrip (pyLower s)) = pyStrip (pyLower s) := by
  apply pyLower_of_allLower
  intro c hc
  exact mem_pyLower_lowered s c (pyStrip_subset _ c hc)

theorem head_congr {α : Type} {l₁ l₂ : List α} (h : l₁ = l₂) (h₁ : l₁ ≠ []) (h₂ : l₂ ≠ []) :
    l₁.head h₁ = l₂.head h₂ := by
  subst h
  rfl

theorem pyStrip_idem (s : List Char) : pyStrip (pyStrip s) = pyStrip s := by
  unfold pyStrip
  have hdrop : ∀ l : List Char,
      ((l.dropWhile isPySpace).rdropWhile isPySpace).dropWhile isPySpace =
        (l.dropWhile isPySpace).rdropWhile isPySpace := by
    intro l
    cases hcb : (l.dropWhile isPySpace).rdropWhile isPySpace with
    | nil => rfl
    | cons c bt =>
      rcases List.rdropWhile_prefix isPySpace (l.dropWhile isPySpace) with ⟨t, hT⟩
      rw [hcb] at hT
      have hEq : l.dropWhile isPySpace = c :: (bt ++ t) := by
        rw [← hT]
        simp
      have hane : l.dropWhile isPySpace ≠ [] := by
        rw [hEq]
        simp
      have hh := List.head_dropWhile_not isPySpace l hane
      rw [head_congr hEq hane (by simp)] at hh
      simp only [List.head_cons] at hh
      simp [List.dropWhile_cons, hh]
  rw [hdrop s]
  exact List.rdropWhile_idempotent isPySpace _

theorem lookupNorm_mem_snd (m : List (List Char × List Char)) (k c : List Char)
    (h : lookupNorm m k = some c) : c ∈ m.map Prod.snd := by
  induction m with
  | nil => simp [lookupNorm] at h
  | cons pc rest ih =>
    rcases pc with ⟨pat, canon⟩
    unfold lookupNorm at h
    by_cases hc : containsSub k pat = true
    · rw [if_pos hc] at h
      simp at h
      simp [h]
    · rw [if_neg hc] at h
      simp [ih h]

theorem lookupNorm_eq_find (m : List (List Char × List Char)) (k : List Char) :
    lookupNorm m k = (m.find? (fun pc => containsSub k pc.1)).map Prod.snd := by
  induction m with
  | nil => rfl
  | cons pc rest ih =>
    rcases pc with ⟨pat, canon⟩
    unfold lookupNorm
    by_cases hc : containsSub k pat = true
    · rw [if_pos hc, List.find?_cons_of_pos _ (by simpa using hc)]
      rfl
    · rw [if_neg hc, List.find?_cons_of_neg _ (by simpa using hc)]
      exact ih

theorem canon_fixed : ∀ c ∈ keyMapping.map Prod.snd, normalize_key c = c := by
  decide

theorem canon_ne_error : ∀ c ∈ keyMapping.map Prod.snd, c ≠ "error".toList := by
  decide

theorem canon_ne_nil : ∀ c ∈ keyMapping.map Prod.snd, c ≠ [] := by
  decide

theorem asciiUpper_ne_e (c : Char) (h : isAsciiAlpha c = true) : asciiUpper c ≠ 'e' := by
  intro hEq
  have := asciiUpper_toNat_le c h
  rw [hEq] at this
  exact absurd this (by decide)

theorem pyTitle_ne_error (x : List Char) : pyTitle x ≠ "error".toList := by
  cases x with
  | nil =>
    intro h
    simp [pyTitle, titleAux] at h
  | cons c cs =>
    intro h
    unfold pyTitle titleAux at h
    by_cases ha : isAsciiAlpha c = true
    · rw [if_pos ha] at h
      have hhead : asciiUpper c = 'e' := by
        have : "error".toList = 'e' :: "rror".toList := rfl
        rw [this] at h
        exact (List.cons.injEq _ _ _ _ ▸ h).1
      exact asciiUpper_ne_e c ha hhead
    · rw [if_neg ha] at h
      have hhead : c = 'e' := by
        have : "error".toList = 'e' :: "rror".toList := rfl
        rw [this] at h
        exact (List.cons.injEq _ _ _ _ ▸ h).1
      rw [hhead] at ha
      exact ha (by decide)

theorem normalize_key_ne_error (s : List Char) : normalize_key s ≠ "error".toList := by
  unfold normalize_key
  cases h : lookupNorm keyMapping (pyStrip (pyLower s)) with
  | some c => exact canon_ne_error c (lookupNorm_mem_snd _ _ _ h)
  | none => exact pyTitle_ne_error _

theorem normalize_key_ne_nil (s : List Char) (h : pyStrip (pyLower s) ≠ []) :
    normalize_key s ≠ [] := by
  unfold normalize_key
  cases hl : lookupNorm keyMapping (pyStrip (pyLower s)) with
  | some c => exact canon_ne_nil c (lookupNorm_mem_snd _ _ _ hl)
  | none =>
    intro hnil
    change pyTitle (pyStrip (pyLower s)) = [] at hnil
    have hlen := titleAux_length false (pyStrip (pyLower s))
    rw [show titleAux false (pyStrip (pyLower s)) = pyTitle (pyStrip (pyLower s)) from rfl,
      hnil] at hlen
    exact h (List.length_eq_zero.mp hlen.symm)

theorem dinsert_ne_nil (m : FeatureMap) (k v : List Char) : dinsert m k v ≠ [] := by
  unfold dinsert
  by_cases hex : m.any (fun p => p.1 = k) = true
  · rw [if_pos hex]
    intro h
    rw [List.map_eq_nil_iff] at h
    subst h
    simp at hex
  · rw [if_neg hex]
    simp

theorem hasKey_dinsert_false (m : FeatureMap) (k v k' : List Char)
    (h1 : hasKey m k' = false) (h2 : k' ≠ k) : hasKey (dinsert m k v) k' = false := by
  unfold dinsert
  unfold hasKey at h1 ⊢
  by_cases hex : m.any (fun p => p.1 = k) = true
  · rw [if_pos hex, List.any_map]
    rw [List.any_eq_false] at h1 ⊢
    intro p hp
    have hne := h1 p hp
    by_cases hk : p.1 = k
    · simp [Function.comp, hk]
      exact fun heq => h2 heq.symm
    · simp [Function.comp, hk]
      simpa using hne
  · rw [if_neg hex, List.any_append]
    rw [List.any_eq_false] at h1
    simp only [List.any_cons, List.any_nil, Bool.or_false]
    have : (m.any fun p => decide (p.1 = k')) = false := by
      rw [List.any_eq_false]
      exact h1
    rw [this]
    simp
    exact fun heq => h2 heq.symm

theorem getVal_dinsert_self (m : FeatureMap) (k v : List Char)
    (h : hasKey m k = false) : getVal (dinsert m k v) k = some v := by
  unfold dinsert getVal
  unfold hasKey at h
  rw [if_neg (by simp [h])]
  have hnone : m.find? (fun p => p.1 = k) = none := by
    rw [List.find?_eq_none]
    intro p hp
    rw [List.any_eq_false] at h
    simpa using h p hp
  rw [List.find?_append, hnone]
  simp

theorem getVal_dinsert_other (m : FeatureMap) (k v k' : List Char) (h : k' ≠ k) :
    getVal (dinsert m k v) k' = getVal m k' := by
  unfold dinsert getVal
  by_cases hex : m.any (fun p => p.1 = k) = true
  · rw [if_pos hex, List.find?_map]
    have hfun : ((fun p : List Char × List Char => decide (p.1 = k')) ∘
        (fun p => if p.1 = k then (p.1, v) else p)) =
        (fun p : List Char × List Char => decide (p.1 = k')) := by
      funext p
      by_cases hk : p.1 = k <;> simp [Function.comp, hk]
    rw [hfun]
    cases hf : m.find? (fun p => decide (p.1 = k')) with
    | none => simp
    | some p =>
      have hp : p.1 = k' := by
        have := List.find?_some hf
        simpa using this
      have hpk : ¬ (p.1 = k) := by
        rw [hp]
        exact h
      simp [hpk]
  · rw [if_neg hex, List.find?_append]
    cases hf : m.find? (fun p => decide (p.1 = k')) with
    | some p => simp [hf]
    | none =>
      have hsing : ([((k, v))].find? fun p => decide (p.1 = k')) = none := by
        rw [List.find?_eq_none]
        intro p hp
        simp only [List.mem_singleton] at hp
        subst hp
        simp only [decide_eq_true_eq]
        exact fun heq => h heq.symm
      simp [hsing]

theorem featureListKey_cons (j : Nat) :
    "Feature List ".toList ++ (Nat.repr j).toList =
      'F' :: ("eature List ".toList ++ (Nat.repr j).toList) := rfl

theorem addFeatureLists_hasKey_false (ls : List (List (List Char))) (m : FeatureMap)
    (i : Nat) (k : List Char) (hk : ∀ t : List Char, k ≠ 'F' :: t)
    (h : hasKey m k = false) : hasKey (addFeatureLists m i ls) k = false := by
  induction ls generalizing m i with
  | nil => exact h
  | cons ul rest ih =>
    unfold addFeatureLists
    by_cases hemp : (ul.take 5).isEmpty = true
    · simp only [hemp, if_true]
      exact ih m (i + 1) h
    · simp only [hemp, if_false, Bool.false_eq_true]
      apply ih
      apply hasKey_dinsert_false _ _ _ _ h
      rw [featureListKey_cons]
      exact hk _

theorem addFeatureLists_getVal (ls : List (List (List Char))) (m : FeatureMap)
    (i : Nat) (k : List Char) (hk : ∀ t : List Char, k ≠ 'F' :: t) :
    getVal (addFeatureLists m i ls) k = getVal m k := by
  induction ls generalizing m i with
  | nil => rfl
  | cons ul rest ih =>
    unfold addFeatureLists
    by_cases hemp : (ul.take 5).isEmpty = true
    · simp only [hemp, if_true]
      exact ih m (i + 1)
    · simp only [hemp, if_false, Bool.false_eq_true]
      rw [ih]
      apply getVal_dinsert_other
      rw [featureListKey_cons]
      exact hk _

theorem addFeatureLists_ne_nil (ls : List (List (List Char))) (m : FeatureMap)
    (i : Nat) (h : m ≠ []) : addFeatureLists m i ls ≠ [] := by
  induction ls generalizing m i with
  | nil => exact h
  | cons ul rest ih =>
    unfold addFeatureLists
    by_cases hemp : (ul.take 5).isEmpty = true
    · simp only [hemp, if_true]
      exact ih m (i + 1) h
    · simp only [hemp, if_false, Bool.false_eq_true]
      exact ih _ (i + 1) (dinsert_ne_nil _ _ _)

theorem addAmazonSpecs_hasKey_error (l : List (Option (List Char) × Option (List Char)))
    (m : FeatureMap) (h : hasKey m "error".toList = false) :
    hasKey (addAmazonSpecs m l) "error".toList = false := by
  induction l generalizing m with
  | nil => exact h
  | cons pr rest ih =>
    rcases pr with ⟨kEl, vEl⟩
    cases kEl with
    | none => exact ih m h
    | some kk =>
      cases vEl with
      | none => exact ih m h
      | some vv =>
        exact ih _ (hasKey_dinsert_false _ _ _ _ h
          (fun heq => normalize_key_ne_error kk heq.symm))

theorem addFlipkartRows_hasKey_error (l : List (List (List Char)))
    (m : FeatureMap) (h : hasKey m "error".toList = false) :
    hasKey (addFlipkartRows m l) "error".toList = false := by
  induction l generalizing m with
  | nil => exact h
  | cons row rest ih =>
    match row with
    | [] => exact ih m h
    | [x] => exact ih m h
    | [x, y] =>
      exact ih _ (hasKey_dinsert_false _ _ _ _ h
        (fun heq => normalize_key_ne_error x heq.symm))
    | x :: y :: z :: t => exact ih m h

theorem addFlipkartSections_hasKey_error (l : List (List (List (List Char))))
    (m : FeatureMap) (h : hasKey m "error".toList = false) :
    hasKey (addFlipkartSections m l) "error".toList = false := by
  induction l generalizing m with
  | nil => exact h
  | cons sec rest ih => exact ih _ (addFlipkartRows_hasKey_error sec m h)

theorem hasKey_nil (k : List Char) : hasKey [] k = false := rfl

theorem hasKey_dinsert_eq (m : FeatureMap) (k v k' : List Char) :
    hasKey (dinsert m k v) k' = (hasKey m k' || decide (k' = k)) := by
  unfold dinsert hasKey
  by_cases hex : m.any (fun p => decide (p.1 = k)) = true
  · rw [if_pos hex, List.any_map]
    have hfun : ((fun p : List Char × List Char => decide (p.1 = k')) ∘
        (fun p => if p.1 = k then (p.1, v) else p)) =
        (fun p : List Char × List Char => decide (p.1 = k')) := by
      funext p
      by_cases hk : p.1 = k <;> simp [Function.comp, hk]
    rw [hfun]
    by_cases he : k' = k
    · subst he
      simp [hex]
    · simp [he]
  · rw [if_neg hex, List.any_append]
    simp [List.any_cons, eq_comm]

theorem dinsert_isEmpty (m : FeatureMap) (k v : List Char) :
    (dinsert m k v).isEmpty = false := by
  cases h : dinsert m k v with
  | nil => exact absurd h (dinsert_ne_nil m k v)
  | cons a t => rfl

theorem addFeatureLists_isEmpty (ls : List (List (List Char))) (m : FeatureMap)
    (i : Nat) (h : m.isEmpty = false) : (addFeatureLists m i ls).isEmpty = false := by
  have h1 : m ≠ [] := by
    intro hh
    rw [hh] at h
    simp at h
  have h2 := addFeatureLists_ne_nil ls m i h1
  cases hc : addFeatureLists m i ls with
  | nil => exact absurd hc h2
  | cons a t => rfl

theorem error_toList_cons : "error".toList = 'e' :: "rror".toList := rfl

theorem descr_toList_cons : "Description".toList = 'D' :: "escription".toList := rfl

theorem error_ne_flist (t : List Char) : "error".toList ≠ 'F' :: t := by
  rw [error_toList_cons]
  intro h
  exact absurd (List.cons.injEq _ _ _ _ ▸ h).1 (by decide)

theorem descr_ne_flist (t : List Char) : "Description".toList ≠ 'F' :: t := by
  rw [descr_toList_cons]
  intro h
  exact absurd (List.cons.injEq _ _ _ _ ▸ h).1 (by decide)

theorem hasKey_addFeatureLists_error (ls : List (List (List Char))) (m : FeatureMap)
    (i : Nat) :
    hasKey (addFeatureLists m i ls) "error".toList = hasKey m "error".toList := by
  induction ls generalizing m i with
  | nil => rfl
  | cons ul rest ih =>
    unfold addFeatureLists
    by_cases hemp : (ul.take 5).isEmpty = true
    · simp only [hemp, if_true]
      exact ih m (i + 1)
    · simp only [hemp, if_false, Bool.false_eq_true]
      rw [ih, hasKey_dinsert_eq]
      have hne : ¬("error".toList = "Feature List ".toList ++ (Nat.repr (i + 1)).toList) := by
        rw [featureListKey_cons]
        exact error_ne_flist _
      rw [decide_eq_false hne]
      simp

theorem getVal_addFeatureLists_descr (ls : List (List (List Char))) (m : FeatureMap)
    (i : Nat) :
    getVal (addFeatureLists m i ls) "Description".toList = getVal m "Description".toList :=
  addFeatureLists_getVal ls m i _ descr_ne_flist

theorem hasKey_addAmazonSpecs_error (l : List (Option (List Char) × Option (List Char)))
    (m : FeatureMap) :
    hasKey (addAmazonSpecs m l) "error".toList = hasKey m "error".toList := by
  induction l generalizing m with
  | nil => rfl
  | cons pr rest ih =>
    rcases pr with ⟨kEl, vEl⟩
    cases kEl with
    | none => exact ih m
    | some kk =>
      cases vEl with
      | none => exact ih m
      | some vv =>
        rw [show addAmazonSpecs m ((some kk, some vv) :: rest) =
          addAmazonSpecs (dinsert m (normalize_key kk) vv) rest from rfl]
        rw [ih, hasKey_dinsert_eq]
        rw [decide_eq_false (fun heq => normalize_key_ne_error kk heq.symm)]
        simp

theorem hasKey_addFlipkartRows_error (l : List (List (List Char))) (m : FeatureMap) :
    hasKey (addFlipkartRows m l) "error".toList = hasKey m "error".toList := by
  induction l generalizing m with
  | nil => rfl
  | cons row rest ih =>
    match row with
    | [] => exact ih m
    | [x] => exact ih m
    | [x, y] =>
      rw [show addFlipkartRows m ([x, y] :: rest) =
        addFlipkartRows (dinsert m (normalize_key x) y) rest from rfl]
      rw [ih, hasKey_dinsert_eq]
      rw [decide_eq_false (fun heq => normalize_key_ne_error x heq.symm)]
      simp
    | x :: y :: z :: t => exact ih m

theorem hasKey_addFlipkartSections_error (l : List (List (List (List Char))))
    (m : FeatureMap) :
    hasKey (addFlipkartSections m l) "error".toList = hasKey m "error".toList := by
  induction l generalizing m with
  | nil => rfl
  | cons sec rest ih =>
    rw [show addFlipkartSections m (sec :: rest) =
      addFlipkartSections (addFlipkartRows m sec) rest from rfl]
    rw [ih, hasKey_addFlipkartRows_error]

theorem hasKey_cons (a b k : List Char) (m : FeatureMap) :
    hasKey ((a, b) :: m) k = (decide (a = k) || hasKey m k) := rfl

theorem getVal_eq_none_of_hasKey_false (m : FeatureMap) (k : List Char)
    (h : hasKey m k = false) : getVal m k = none := by
  unfold getVal
  unfold hasKey at h
  rw [List.any_eq_false] at h
  rw [List.find?_eq_none.mpr (fun p hp => by simpa using h p hp)]
  rfl

theorem scrapePage_hasKey_error (url : List Char) (pg : Page) :
    hasKey (scrapePage url pg) "error".toList = false := by
  simp only [scrapePage, extract_text]
  cases hh1 : pg.h1 <;>
    simp only [apply_ite (fun m : FeatureMap => hasKey m "error".toList),
      hasKey_dinsert_eq, hasKey_nil, hasKey_cons, hasKey_addFeatureLists_error,
      decide_False, Bool.or_false, Bool.false_or, ite_self, Bool.or_self] <;>
    split_ifs <;> decide

theorem scrapePage_isEmpty (url : List Char) (pg : Page) :
    (scrapePage url pg).isEmpty = false := by
  simp only [scrapePage, extract_text]
  cases hh1 : pg.h1 <;>
    simp only [apply_ite List.isEmpty, addFeatureLists_isEmpty, dinsert_isEmpty,
      List.isEmpty_cons, ite_self]

theorem scrapePage_ne_nil (url : List Char) (pg : Page) : scrapePage url pg ≠ [] := by
  intro h
  have hie := scrapePage_isEmpty url pg
  rw [h] at hie
  simp at hie

theorem scrapePage_descr (url : List Char) (pg : Page)
    (hds : truthyOpt pg.descSel = false) :
    getVal (scrapePage url pg) "Description".toList = some (descFallback pg) := by
  simp only [scrapePage, extract_text, hds, Bool.false_eq_true, if_false]
  cases hh1 : pg.h1 <;>
    simp +decide only [apply_ite (fun m : FeatureMap => getVal m "Description".toList),
      apply_ite (fun m : FeatureMap => hasKey m "Description".toList),
      apply_ite List.isEmpty,
      getVal_addFeatureLists_descr, addFeatureLists_isEmpty, dinsert_isEmpty,
      getVal_dinsert_self, getVal_dinsert_other, hasKey_dinsert_eq, hasKey_nil,
      hasKey_cons, ite_self, Bool.or_false, Bool.false_or, decide_False,
      Bool.false_eq_true, if_false, if_true]

theorem scrapeDynamicPage_hasKey_error (url : List Char) (r : RenderedPage)
    (h : routeIsDynamic url = true) :
    hasKey (scrapeDynamicPage url r) "error".toList = false := by
  unfold scrapeDynamicPage
  by_cases hA : containsSub url "amazon".toList = true
  · simp only [hA, if_true]
    cases r.amazonTitle <;> cases r.amazonPrice <;>
      simp only [hasKey_addAmazonSpecs_error, hasKey_dinsert_eq, hasKey_nil] <;>
      decide
  · have hF : containsSub url "flipkart".toList = true := by
      unfold routeIsDynamic at h
      rcases Bool.or_eq_true_iff.mp h with h1 | h1
      · exact absurd h1 hA
      · exact h1
    simp only [hA, hF, if_true, if_false, Bool.false_eq_true]
    cases r.flipkartTitle <;> cases r.flipkartPrice <;>
      simp only [hasKey_addFlipkartSections_error, hasKey_dinsert_eq, hasKey_nil] <;>
      decide

/-- C1 (counterexample): the claim says a failure of the first URL's
extraction means the second URL's extraction is never attempted.  With the
oracle `fetchFailA`, whose fetch of `http://a` fails, the first extraction
carries the reserved error key, yet the orchestrator's log shows the second
URL `http://b` was also fetched: src/app.py:207 evaluates both extractions
before any error check. -/
theorem c1_counterexample :
    hasKey (scrape_features fetchFailA "http://a".toList) "error".toList = true ∧
    (compare2 fetchFailA (some ⟨some "http://a".toList, some "http://b".toList⟩)).2 =
      [("http://a".toList, FetchKind.plain), ("http://b".toList, FetchKind.plain)] := by
  constructor
  · rfl
  · rfl

/-- C1 (amended): when the first URL's extraction fails, the orchestrator
surfaces that single failure and returns no partial results, but it does
attempt the second URL's extraction: once validation passes, both extractions
are performed unconditionally, and the response is the first URL's error
message alone. -/
theorem c1_both_attempted (fetch : List Char → FetchOutcome) (u1 u2 : List Char)
    (h1 : truthyOpt (some u1) = true) (h2 : truthyOpt (some u2) = true)
    (hv1 : is_valid_url u1 = true) (hv2 : is_valid_url u2 = true)
    (he : hasKey (scrape_features fetch u1) "error".toList = true) :
    (compare2 fetch (some ⟨some u1, some u2⟩)).1 =
      Resp.err ((getVal (scrape_features fetch u1) "error".toList).getD []) ∧
    (compare2 fetch (some ⟨some u1, some u2⟩)).2 =
      [(u1, FetchKind.plain), (u2, FetchKind.plain)] := by
  unfold compare2
  simp only [h1, h2, hv1, hv2, he, Option.getD_some, Bool.and_self, Bool.not_true,
    Bool.false_eq_true, if_false, if_true]
  constructor <;> trivial

/-- C1 (witness): the amended statement evaluated with the oracle that fails
on `http://a` and succeeds on `http://b`. -/
theorem c1_both_attempted_witness :
    (truthyOpt (some "http://a".toList) = true ∧
      is_valid_url "http://a".toList = true ∧
      hasKey (scrape_features fetchFailA "http://a".toList) "error".toList = true) ∧
    (compare2 fetchFailA (some ⟨some "http://a".toList, some "http://b".toList⟩)).1 =
      Resp.err ((getVal (scrape_features fetchFailA "http://a".toList) "error".toList).getD []) ∧
    (compare2 fetchFailA (some ⟨some "http://a".toList, some "http://b".toList⟩)).2 =
      [("http://a".toList, FetchKind.plain), ("http://b".toList, FetchKind.plain)] :=
  ⟨⟨by decide, by decide, by decide⟩,
    c1_both_attempted fetchFailA "http://a".toList "http://b".toList
      (by decide) (by decide) (by decide) (by decide) (by decide)⟩

/-- C2 (counterexample): the claim says `normalize` returns a non-empty
string for every input, but on the empty string the lowercased stripped label
is empty, no pattern matches, and the title-cased result is again the empty
string. -/
theorem c2_counterexample : normalize_key "".toList = [] := by decide

/-- C2 (amended): `normalize_key` is a pure total function, and it returns a
non-empty string for every input whose lowercased stripped form is non-empty,
that is, for every input containing at least one non-whitespace character;
only whitespace-only inputs yield the empty string. -/
theorem c2_nonempty_amended (s : List Char) (h : pyStrip (pyLower s) ≠ []) :
    normalize_key s ≠ [] :=
  normalize_key_ne_nil s h

/-- C2 (witness): the amended statement evaluated at the label
`battery life`. -/
theorem c2_nonempty_amended_witness :
    pyStrip (pyLower "battery life".toList) ≠ [] ∧
    normalize_key "battery life".toList ≠ [] :=
  ⟨by decide, c2_nonempty_amended "battery life".toList (by decide)⟩

/-- C3 (counterexample): the claim says any label containing both `battery`
and `storage` resolves to the canonical name of whichever of those two
patterns is declared first (`Storage`); but the label `ram battery storage`
contains both substrings and resolves to `RAM`, because the earlier-declared
pattern `ram` also matches and table order alone decides. -/
theorem c3_counterexample :
    containsSub (pyStrip (pyLower "ram battery storage".toList)) "battery".toList = true ∧
    containsSub (pyStrip (pyLower "ram battery storage".toList)) "storage".toList = true ∧
    normalize_key "ram battery storage".toList = "RAM".toList ∧
    normalize_key "ram battery storage".toList ≠ "Storage".toList := by
  decide

/-- C3 (amended): `normalize_key` returns the canonical name of the first
pattern, in table-declaration order, that occurs as a substring of the
lowercased stripped label, and the title-cased label when no pattern matches;
in particular a label containing both `battery` and `storage` and no
earlier-declared pattern (`memory`, `ram`) resolves to `Storage`, the
canonical name of the first-declared of the two. -/
theorem c3_first_match_amended (key : List Char) :
    normalize_key key =
      (((keyMapping.find? (fun pc => containsSub (pyStrip (pyLower key)) pc.1)).map
        Prod.snd).getD (pyTitle (pyStrip (pyLower key)))) ∧
    (containsSub (pyStrip (pyLower key)) "battery".toList = true →
     containsSub (pyStrip (pyLower key)) "storage".toList = true →
     containsSub (pyStrip (pyLower key)) "memory".toList = false →
     containsSub (pyStrip (pyLower key)) "ram".toList = false →
     normalize_key key = "Storage".toList) := by
  constructor
  · unfold normalize_key
    rw [lookupNorm_eq_find]
    cases keyMapping.find? (fun pc => containsSub (pyStrip (pyLower key)) pc.1) <;> rfl
  · intro h1 h2 h3 h4
    have hlk : lookupNorm keyMapping (pyStrip (pyLower key)) = some "Storage".toList := by
      simp only [keyMapping, lookupNorm, h1, h2, h3, h4, Bool.false_eq_true, if_false,
        if_true, ite_self, eq_self_iff_true]
    unfold normalize_key
    rw [hlk]

/-- C3 (witness): the amended statement evaluated at the label
`battery storage`, which contains no earlier-declared pattern. -/
theorem c3_first_match_amended_witness :
    (containsSub (pyStrip (pyLower "battery storage".toList)) "battery".toList = true ∧
     containsSub (pyStrip (pyLower "battery storage".toList)) "storage".toList = true ∧
     containsSub (pyStrip (pyLower "battery storage".toList)) "memory".toList = false ∧
     containsSub (pyStrip (pyLower "battery storage".toList)) "ram".toList = false) ∧
    normalize_key "battery storage".toList = "Storage".toList :=
  ⟨⟨by decide, by decide, by decide, by decide⟩,
    (c3_first_match_amended "battery storage".toList).2
      (by decide) (by decide) (by decide) (by decide)⟩

/-- C4 (counterexample): the claim says the rendering path is selected if and
only if the URL's host matches marketplace-A or marketplace-B.  The URL
`https://example.com/amazon` has host `example.com`, which matches neither
marketplace, yet the router sends it through the rendering fetch, because the
source tests `amazon`/`flipkart` as substrings of the whole URL
(src/app.py:111-112), not of its host. -/
theorem c4_counterexample :
    routeIsDynamic "https://example.com/amazon".toList = true ∧
    specRouterDynamic "https://example.com/amazon".toList = false ∧
    (compare1 renderDemo fetchDemo
      (some ⟨some "https://example.com/amazon".toList, some "http://b".toList⟩)).2 =
      [("https://example.com/amazon".toList, FetchKind.rendering),
       ("http://b".toList, FetchKind.plain)] := by
  refine ⟨by decide, by decide, ?_⟩
  rfl

/-- C4 (amended): the router selects the rendering fetch plus the
rendered-DOM extractor exactly when `amazon` or `flipkart` occurs as a
substring anywhere in the URL (not necessarily in its host), and the plain
fetch plus the generic extractor otherwise; the two URLs of one comparison
are routed independently, each by its own substring test, and on success the
response pairs the two correspondingly extracted feature maps. -/
theorem c4_substring_routing_amended (render : List Char → RenderOutcome)
    (fetch : List Char → FetchOutcome) (u1 u2 : List Char)
    (h1 : truthyOpt (some u1) = true) (h2 : truthyOpt (some u2) = true)
    (hv1 : is_valid_url u1 = true) (hv2 : is_valid_url u2 = true) :
    (compare1 render fetch (some ⟨some u1, some u2⟩)).2 =
      [(u1, if routeIsDynamic u1 then FetchKind.rendering else FetchKind.plain),
       (u2, if routeIsDynamic u2 then FetchKind.rendering else FetchKind.plain)] ∧
    (hasKey (if routeIsDynamic u1 then scrape_dynamic_features render u1
        else scrape_features fetch u1) "error".toList = false →
     hasKey (if routeIsDynamic u2 then scrape_dynamic_features render u2
        else scrape_features fetch u2) "error".toList = false →
     (compare1 render fetch (some ⟨some u1, some u2⟩)).1 =
       Resp.ok
         (if routeIsDynamic u1 then scrape_dynamic_features render u1
          else scrape_features fetch u1)
         (if routeIsDynamic u2 then scrape_dynamic_features render u2
          else scrape_features fetch u2)) := by
  unfold compare1
  simp only [h1, h2, hv1, hv2, Option.getD_some, Bool.and_self, Bool.not_true,
    Bool.false_eq_true, if_false, if_true]
  constructor
  · simp only [apply_ite (fun r : Resp × List (List Char × FetchKind) => r.2), ite_self]
  · intro he1 he2
    simp only [he1, he2, Bool.false_eq_true, if_false]

/-- C4 (witness): the amended statement evaluated on one URL routed to the
rendering path by a substring in its path and one generic URL. -/
theorem c4_substring_routing_amended_witness :
    (truthyOpt (some "https://example.com/amazon".toList) = true ∧
      is_valid_url "https://example.com/amazon".toList = true ∧
      is_valid_url "http://b".toList = true) ∧
    (compare1 renderDemo fetchDemo
      (some ⟨some "https://example.com/amazon".toList, some "http://b".toList⟩)).2 =
      [("https://example.com/amazon".toList,
        if routeIsDynamic "https://example.com/amazon".toList then FetchKind.rendering
        else FetchKind.plain),
       ("http://b".toList,
        if routeIsDynamic "http://b".toList then FetchKind.rendering
        else FetchKind.plain)] :=
  ⟨⟨by decide, by decide, by decide⟩,
    (c4_substring_routing_amended renderDemo fetchDemo
      "https://example.com/amazon".toList "http://b".toList
      (by decide) (by decide) (by decide) (by decide)).1⟩

/-- C5 (confirmed): whenever the payload is missing, either URL is absent or
falsy, or either URL fails the `http://`/`https://` prefix test, both
`/compare` handlers return a 400 validation error and their fetch logs are
empty, so no network work happens for either URL. -/
theorem c5_validation_no_fetch (render : List Char → RenderOutcome)
    (fetch : List Char → FetchOutcome) (payload : Option Payload)
    (h : payload = none ∨
      ∃ d, payload = some d ∧
        (truthyOpt d.url1 = false ∨ truthyOpt d.url2 = false ∨
         is_valid_url (d.url1.getD []) = false ∨ is_valid_url (d.url2.getD []) = false)) :
    ((∃ msg, (compare1 render fetch payload).1 = Resp.err msg) ∧
      (compare1 render fetch payload).2 = [] ∧
      (∃ msg, (compare2 fetch payload).1 = Resp.err msg) ∧
      (compare2 fetch payload).2 = []) := by
  rcases h with h | ⟨d, rfl, hd⟩
  · subst h
    exact ⟨⟨_, rfl⟩, rfl, ⟨_, rfl⟩, rfl⟩
  · by_cases ht : (truthyOpt d.url1 && truthyOpt d.url2) = true
    · have hv : (is_valid_url (d.url1.getD []) && is_valid_url (d.url2.getD [])) = false := by
        rcases hd with h1 | h2 | h3 | h4
        · rw [Bool.and_eq_true] at ht
          rw [ht.1] at h1
          cases h1
        · rw [Bool.and_eq_true] at ht
          rw [ht.2] at h2
          cases h2
        · simp [h3]
        · simp [h4]
      unfold compare1 compare2
      simp only [ht, hv, Bool.not_true, Bool.not_false, Bool.false_eq_true, if_false, if_true]
      simp
    · have ht' : (truthyOpt d.url1 && truthyOpt d.url2) = false := by
        simpa using ht
      unfold compare1 compare2
      simp only [ht', Bool.not_false, if_true]
      simp

/-- C5 (witness): the spec's own example, `url1 = ftp://x` with a well-formed
`url2`: the scheme check fails, both handlers answer with a validation error
and no fetch is logged. -/
theorem c5_validation_no_fetch_witness :
    is_valid_url "ftp://x".toList = false ∧
    ((∃ msg, (compare1 renderDemo fetchDemo
        (some ⟨some "ftp://x".toList, some "https://y".toList⟩)).1 = Resp.err msg) ∧
      (compare1 renderDemo fetchDemo
        (some ⟨some "ftp://x".toList, some "https://y".toList⟩)).2 = [] ∧
      (∃ msg, (compare2 fetchDemo
        (some ⟨some "ftp://x".toList, some "https://y".toList⟩)).1 = Resp.err msg) ∧
      (compare2 fetchDemo
        (some ⟨some "ftp://x".toList, some "https://y".toList⟩)).2 = []) :=
  ⟨by decide,
    c5_validation_no_fetch renderDemo fetchDemo _
      (Or.inr ⟨_, rfl, Or.inr (Or.inr (Or.inl (by decide)))⟩)⟩

/-- C6 (confirmed): for every successfully fetched, non-empty document, the
generic fallback extractor returns a feature map with at least one entry; the
`Description` entry is written unconditionally, so the cascade can never end
empty (the final minimal-descriptor branch is in fact dead code). -/
theorem c6_generic_nonempty (fetch : List Char → FetchOutcome) (url : List Char)
    (pg : Page) (hf : fetch url = FetchOutcome.success pg)
    (_hne : 0 < pg.contentLength) : 1 ≤ (scrape_features fetch url).length := by
  have hs : scrape_features fetch url = scrapePage url pg := by
    simp [scrape_features, hf]
  rw [hs]
  exact List.length_pos.mpr (scrapePage_ne_nil url pg)

/-- C6 (witness): the non-emptiness guarantee evaluated on the demonstration
page. -/
theorem c6_generic_nonempty_witness :
    (fetchDemo "http://a".toList = FetchOutcome.success pgDemo ∧
      0 < pgDemo.contentLength) ∧
    1 ≤ (scrape_features fetchDemo "http://a".toList).length :=
  ⟨⟨rfl, by decide⟩,
    c6_generic_nonempty fetchDemo "http://a".toList pgDemo rfl (by decide)⟩

/-- C7 (confirmed): in the generic extractor, when no description-bearing
selector produces a truthy match, the `Description` value is the page's
meta-description content truncated to 200 characters with a trailing `...`
marker, and exactly the literal `No description found` when the meta tag is
absent. -/
theorem c7_description_fallback (fetch : List Char → FetchOutcome) (url : List Char)
    (pg : Page) (hf : fetch url = FetchOutcome.success pg)
    (hds : truthyOpt pg.descSel = false) :
    (∀ c, pg.metaDesc = some c →
      getVal (scrape_features fetch url) "Description".toList =
        some (c.take 200 ++ "...".toList)) ∧
    (pg.metaDesc = none →
      getVal (scrape_features fetch url) "Description".toList =
        some "No description found".toList) := by
  have hs : scrape_features fetch url = scrapePage url pg := by
    simp [scrape_features, hf]
  have hd := scrapePage_descr url pg hds
  rw [hs]
  constructor
  · intro c hc
    rw [hd]
    unfold descFallback
    rw [hc]
  · intro hc
    rw [hd]
    unfold descFallback
    rw [hc]

/-- C7 (witness): the meta-description branch evaluated on the demonstration
page, whose description selectors match nothing and whose meta description is
`A small widget`. -/
theorem c7_description_fallback_witness :
    (fetchDemo "http://a".toList = FetchOutcome.success pgDemo ∧
      truthyOpt pgDemo.descSel = false ∧
      pgDemo.metaDesc = some "A small widget".toList) ∧
    getVal (scrape_features fetchDemo "http://a".toList) "Description".toList =
      some ("A small widget".toList.take 200 ++ "...".toList) :=
  ⟨⟨rfl, by decide, rfl⟩,
    (c7_description_fallback fetchDemo "http://a".toList pgDemo rfl (by decide)).1
      "A small widget".toList rfl⟩

/-- C8 (confirmed): under the router's precondition, that the rendering path
is taken only for URLs containing the `amazon` or `flipkart` substring, the
rendered-DOM extractor never returns the `Unsupported platform` failure: its
unsupported-platform branch is unreachable from the orchestrator. -/
theorem c8_unsupported_unreachable (render : List Char → RenderOutcome)
    (url : List Char) (h : routeIsDynamic url = true) :
    getVal (scrape_dynamic_features render url) "error".toList ≠
      some "Unsupported platform".toList := by
  unfold scrape_dynamic_features
  cases hr : render url with
  | failure e =>
    intro hEq
    have hv : getVal [("error".toList, "Error scraping ".toList ++ url ++ ": ".toList ++ e)]
        "error".toList = some ("Error scraping ".toList ++ url ++ ": ".toList ++ e) := by
      simp [getVal, List.find?]
    rw [hv] at hEq
    simp only [Option.some.injEq] at hEq
    rw [show "Error scraping ".toList = 'E' :: "rror scraping ".toList from rfl,
      show "Unsupported platform".toList = 'U' :: "nsupported platform".toList from rfl] at hEq
    simp [List.cons_append] at hEq
  | success r =>
    rw [getVal_eq_none_of_hasKey_false _ _ (scrapeDynamicPage_hasKey_error url r h)]
    simp

/-- C8 (witness): the unreachability statement evaluated at an Amazon URL
with the demonstration rendering oracle. -/
theorem c8_unsupported_unreachable_witness :
    routeIsDynamic "http://amazon.in/x".toList = true ∧
    getVal (scrape_dynamic_features renderDemo "http://amazon.in/x".toList)
      "error".toList ≠ some "Unsupported platform".toList :=
  ⟨by decide,
    c8_unsupported_unreachable renderDemo "http://amazon.in/x".toList (by decide)⟩

/-- C9 (confirmed): no successful extraction ever produces a feature map
containing the reserved lowercase key `error`: `normalize_key` never returns
`error` (canonical names and title-cased fallbacks start with an uppercase
letter), and every fixed key written by the extractors is capitalized, so the
orchestrator's reserved-key check cannot misclassify a successful extraction
as a failure. -/
theorem c9_no_error_key :
    (∀ s : List Char, normalize_key s ≠ "error".toList) ∧
    (∀ (fetch : List Char → FetchOutcome) (url : List Char) (pg : Page),
      fetch url = FetchOutcome.success pg →
      hasKey (scrape_features fetch url) "error".toList = false) ∧
    (∀ (render : List Char → RenderOutcome) (url : List Char) (r : RenderedPage),
      render url = RenderOutcome.success r → routeIsDynamic url = true →
      hasKey (scrape_dynamic_features render url) "error".toList = false) := by
  refine ⟨normalize_key_ne_error, ?_, ?_⟩
  · intro fetch url pg hf
    have hs : scrape_features fetch url = scrapePage url pg := by
      simp [scrape_features, hf]
    rw [hs]
    exact scrapePage_hasKey_error url pg
  · intro render url r hr h
    have hs : scrape_dynamic_features render url = scrapeDynamicPage url r := by
      simp [scrape_dynamic_features, hr]
    rw [hs]
    exact scrapeDynamicPage_hasKey_error url r h

/-- C9 (witness): the reserved-key invariant evaluated on the demonstration
oracles for one generic and one marketplace extraction, and on a sample
label. -/
theorem c9_no_error_key_witness :
    normalize_key "battery".toList ≠ "error".toList ∧
    hasKey (scrape_features fetchDemo "http://a".toList) "error".toList = false ∧
    hasKey (scrape_dynamic_features renderDemo "http://amazon.in/x".toList)
      "error".toList = false :=
  ⟨c9_no_error_key.1 "battery".toList,
    c9_no_error_key.2.1 fetchDemo "http://a".toList pgDemo rfl,
    c9_no_error_key.2.2 renderDemo "http://amazon.in/x".toList rpgDemo rfl (by decide)⟩

/-- C10 (confirmed): key normalization is idempotent, `normalize_key
(normalize_key s) = normalize_key s` for every string, and every canonical
name of the table is a fixed point of `normalize_key`; title-cased fallback
outputs are fixed points as an instance of the idempotence equation. -/
theorem c10_normalize_idempotent :
    (∀ s : List Char, normalize_key (normalize_key s) = normalize_key s) ∧
    normalize_key "RAM".toList = "RAM".toList ∧
    normalize_key "Storage".toList = "Storage".toList ∧
    normalize_key "Battery".toList = "Battery".toList ∧
    normalize_key "Camera".toList = "Camera".toList ∧
    normalize_key "Display".toList = "Display".toList ∧
    normalize_key "Price".toList = "Price".toList ∧
    normalize_key "Product".toList = "Product".toList := by
  refine ⟨?_, by decide, by decide, by decide, by decide, by decide, by decide, by decide⟩
  intro s
  cases h : lookupNorm keyMapping (pyStrip (pyLower s)) with
  | some c =>
    have hc : normalize_key s = c := by
      unfold normalize_key
      rw [h]
    rw [hc]
    exact canon_fixed c (lookupNorm_mem_snd _ _ _ h)
  | none =>
    have hc : normalize_key s = pyTitle (pyStrip (pyLower s)) := by
      unfold normalize_key
      rw [h]
    rw [hc]
    have hxl : pyLower (pyTitle (pyStrip (pyLower s))) = pyStrip (pyLower s) := by
      rw [show pyTitle (pyStrip (pyLower s)) = titleAux false (pyStrip (pyLower s)) from rfl]
      rw [pyLower_titleAux]
      exact pyLower_pyStrip_pyLower s
    unfold normalize_key
    rw [hxl, pyStrip_idem, h]
